import Mathlib

/-!  Verification of the market-data service of `ai-trading-signal-engine`
(the indicator, sector-ranking and parsing layer, `src/unnamed/part_002`).

Modelling conventions:
* JavaScript floating-point numbers are modelled as exact rationals (`ℚ`);
  `null`/`undefined` results are modelled with `Option`.
* `Math.sqrt` (used only by `computeZScore`) has no exact counterpart on
  `ℚ`, so it is passed in as an abstract function parameter `sqrt`;
  the theorems below use at most the fact `sqrt 0 = 0`, which is true of
  `Math.sqrt`.
* String helpers of JS that the parser uses (`trim`, `split`) are modelled
  on `List Char` with structurally recursive functions so that every
  concrete evaluation reduces in the kernel.
-/

namespace TradingSignal

attribute [local semireducible] Rat.add Rat.mul Rat.inv Rat.sub Rat.ofScientific

/-- One OHLCV daily bar (`PriceBar` in the source).  The JS field `open`
is called `opn` here because `open` is a Lean keyword. -/
structure PriceBar where
  symbol : String
  date : String
  opn : ℚ
  high : ℚ
  low : ℚ
  close : ℚ
  volume : ℚ
  deriving DecidableEq, Repr, Inhabited

/-- `IndicatorRow` of the source. -/
structure IndicatorRow where
  symbol : String
  date : String
  ema21 : ℚ
  ema50 : ℚ
  ema200 : ℚ
  atr_pct : ℚ
  rs_vs_spy : ℚ
  rs_slope_10d : ℚ
  volume_z : ℚ
  dollar_vol : ℚ
  deriving DecidableEq, Repr

/-- `SectorMetricRow` of the source.  `rank` is only ever assigned the
values `0` (initial) and `index + 1`, so it is modelled as `ℕ`. -/
structure SectorMetricRow where
  sector_id : String
  week_end_date : String
  etf_symbol : String
  bench_symbol : String
  etf_5d_return : ℚ
  bench_5d_return : ℚ
  rel_strength_5d : ℚ
  etf_dollar_vol_z : ℚ
  breadth_above_ema21 : ℚ
  rank : ℕ
  deriving DecidableEq, Repr

/-- `IndicatorValueRow` of the source: the `(symbol, ema21)` projection of
`indicators_daily` used for the breadth computation. -/
structure IndicatorValueRow where
  symbol : String
  ema21 : ℚ
  deriving DecidableEq, Repr

/-- `CloseRow` of the source: the `(symbol, close)` projection of
`price_bars_daily` used for the breadth computation. -/
structure CloseRow where
  symbol : String
  close : ℚ
  deriving DecidableEq, Repr

/-- JS `array.slice(-n)`: the last `n` elements of the list (the whole
list when it is shorter than `n`). -/
def jsSliceLast (n : ℕ) (l : List α) : List α :=
  l.drop (l.length - n)

/-- Lookup in a JS `Map` built by `new Map(entries)` where a later entry
with the same key overwrites an earlier one, so the *last* matching entry
wins; `none` plays the role of `undefined`. -/
def jsMapGet (entries : List (String × α)) (key : String) : Option α :=
  entries.foldl (fun acc e => if e.1 = key then some e.2 else acc) none

/-- `computeEma` (lines 332-340): `null` when the series is shorter than
the period, otherwise the simple average of the first `period` values
smoothed forward over the rest with factor `k = 2/(period+1)`. -/
def computeEma (values : List ℚ) (period : ℕ) : Option ℚ :=
  if values.length < period then none
  else
    let k : ℚ := 2 / ((period : ℚ) + 1)
    let seed : ℚ := (values.take period).foldl (· + ·) 0 / (period : ℚ)
    some ((values.drop period).foldl (fun ema v => v * k + ema * (1 - k)) seed)

/-- `computeAtrPct` (lines 342-360).  The loop collects one true range per
consecutive pair of bars: pairing `bars[i]` (current) with `bars[i-1]`
(previous) is `(bars.drop 1).zip bars`. -/
def computeAtrPct (bars : List PriceBar) (period : ℕ) : Option ℚ :=
  if bars.length < period + 1 then none
  else
    let trs : List ℚ := ((bars.drop 1).zip bars).map fun p =>
      max (p.1.high - p.1.low) (max |p.1.high - p.2.close| |p.1.low - p.2.close|)
    if trs.length < period then none
    else
      let recent := jsSliceLast period trs
      let atr : ℚ := recent.foldl (· + ·) 0 / (period : ℚ)
      match bars.getLast? with
      | none => none
      | some lastBar =>
        if lastBar.close = 0 then none else some (atr / lastBar.close)

/-- `computeZScore` (lines 362-371).  `Math.sqrt` is the abstract
parameter `sqrt`; since the series is nonempty in the branch that uses it,
`values[values.length - 1]` is `values.getLastD 0`. -/
def computeZScore (sqrt : ℚ → ℚ) (values : List ℚ) : Option ℚ :=
  if values.length < 2 then none
  else
    let mean : ℚ := values.foldl (· + ·) 0 / (values.length : ℚ)
    let variance : ℚ := (values.foldl (fun s v => s + (v - mean) ^ 2) 0) / (values.length : ℚ)
    let std := sqrt variance
    if std = 0 then some 0
    else some ((values.getLastD 0 - mean) / std)

/-- `computeSlope` (lines 373-389): ordinary-least-squares slope over
index/value pairs, accumulating the four sums of the source's loop. -/
def computeSlope (values : List ℚ) : Option ℚ :=
  if values.length < 2 then none
  else
    let n : ℚ := values.length
    let s := values.enum.foldl
      (fun (acc : ℚ × ℚ × ℚ × ℚ) p =>
        (acc.1 + (p.1 : ℚ), acc.2.1 + p.2, acc.2.2.1 + (p.1 : ℚ) * p.2,
          acc.2.2.2 + (p.1 : ℚ) * (p.1 : ℚ)))
      (0, 0, 0, 0)
    let denominator := n * s.2.2.2 - s.1 * s.1
    if denominator = 0 then none
    else some ((n * s.2.2.1 - s.1 * s.2.1) / denominator)

/-- The relative-strength series collected by `computeIndicatorsFromBars`
(lines 426-432): one entry `close / benchClose` per bar whose date has a
truthy (present and nonzero) benchmark close. -/
def rsSeriesOf (bars : List PriceBar) (spyCloseByDate : List (String × ℚ)) : List ℚ :=
  bars.filterMap fun bar =>
    match jsMapGet spyCloseByDate bar.date with
    | some benchClose => if benchClose ≠ 0 then some (bar.close / benchClose) else none
    | none => none

/-- `computeIndicatorsFromBars` (lines 402-453).  The source checks the
four values `ema21/ema50/ema200/atrPct` for `null` in a single `if`;
matching them in sequence is equivalent.  `if (!spyClose) return null`
fires when the benchmark close is missing (`undefined`) or `0`; after it,
the source's `spyClose === 0 ? null : ...` ternary is re-modelled verbatim
even though its `null` branch is unreachable. -/
def computeIndicatorsFromBars (sqrt : ℚ → ℚ) (symbol asOfDate : String)
    (bars : List PriceBar) (spyCloseByDate : List (String × ℚ)) : Option IndicatorRow :=
  match bars.getLast? with
  | none => none
  | some lastBar =>
    if lastBar.date ≠ asOfDate then none
    else
      let closes := bars.map fun b => b.close
      match computeEma closes 21 with
      | none => none
      | some ema21 =>
        match computeEma closes 50 with
        | none => none
        | some ema50 =>
          match computeEma closes 200 with
          | none => none
          | some ema200 =>
            match computeAtrPct bars 14 with
            | none => none
            | some atrPct =>
              match jsMapGet spyCloseByDate asOfDate with
              | none => none
              | some spyClose =>
                if spyClose = 0 then none
                else
                  match (if spyClose = 0 then none
                         else some (lastBar.close / spyClose) : Option ℚ) with
                  | none => none
                  | some rsVsSpy =>
                    match computeSlope (jsSliceLast 10 (rsSeriesOf bars spyCloseByDate)) with
                    | none => none
                    | some rsSlope10d =>
                      match computeZScore sqrt ((jsSliceLast 60 bars).map fun b => b.volume) with
                      | none => none
                      | some volumeZ =>
                        some { symbol := symbol, date := asOfDate, ema21 := ema21,
                               ema50 := ema50, ema200 := ema200, atr_pct := atrPct,
                               rs_vs_spy := rsVsSpy, rs_slope_10d := rsSlope10d,
                               volume_z := volumeZ,
                               dollar_vol := lastBar.close * lastBar.volume }

/-- One iteration of the member loop of `computeSectorMetric`
(lines 561-567), where `f`/`g` look a symbol up in the `ema21`/`close`
maps and `ac` is the running `(above, total)` pair: a member with both
values present bumps `total`, and also `above` when `close > ema`. -/
def breadthStep (f g : String → Option ℚ) (ac : ℕ × ℕ) (s : String) : ℕ × ℕ :=
  match f s, g s with
  | some ema, some close => (if ema < close then ac.1 + 1 else ac.1, ac.2 + 1)
  | _, _ => ac

/-- The `(close, ema21)` pair of one member symbol, when both are present
in the loaded rows. -/
def breadthPair (f g : String → Option ℚ) (s : String) : Option (ℚ × ℚ) :=
  match f s, g s with
  | some ema, some close => some (close, ema)
  | _, _ => none

/-- The parameter object of `computeSectorMetric` (lines 519-529). -/
structure SectorMetricParams where
  sectorId : String
  etfSymbol : String
  benchmark : String
  weekEndDate : String
  etfBars : List PriceBar
  benchBars : List PriceBar
  memberSymbols : List String
  indicatorRows : List IndicatorValueRow
  priceRows : List CloseRow
  deriving DecidableEq, Repr

/-- `computeSectorMetric` (lines 519-583).  `bars[bars.length - k]` is in
range whenever the 6-bar guard passed, so it is modelled with `getD` and
a default bar.  The member loop is the `foldl` accumulating
`(above, total)`; the two JS `Map`s are `jsMapGet` over the entry lists
(last entry wins, as with `new Map`). -/
def computeSectorMetric (sqrt : ℚ → ℚ) (p : SectorMetricParams) : Option SectorMetricRow :=
  if p.etfBars.length < 6 ∨ p.benchBars.length < 6 then none
  else
    let etfReturn := (p.etfBars.getD (p.etfBars.length - 1) default).close /
      (p.etfBars.getD (p.etfBars.length - 6) default).close - 1
    let benchReturn := (p.benchBars.getD (p.benchBars.length - 1) default).close /
      (p.benchBars.getD (p.benchBars.length - 6) default).close - 1
    let relStrength := etfReturn - benchReturn
    match computeZScore sqrt (jsSliceLast 60 (p.etfBars.map fun b => b.close * b.volume)) with
    | none => none
    | some etfDollarVolZ =>
      let breadth : ℚ :=
        if p.memberSymbols.isEmpty then 0
        else
          let emaBySymbol := p.indicatorRows.map fun r => (r.symbol, r.ema21)
          let closeBySymbol := p.priceRows.map fun r => (r.symbol, r.close)
          let counts := p.memberSymbols.foldl
            (breadthStep (jsMapGet emaBySymbol) (jsMapGet closeBySymbol)) (0, 0)
          if counts.2 = 0 then 0 else (counts.1 : ℚ) / (counts.2 : ℚ)
      some { sector_id := p.sectorId, week_end_date := p.weekEndDate,
             etf_symbol := p.etfSymbol, bench_symbol := p.benchmark,
             etf_5d_return := etfReturn, bench_5d_return := benchReturn,
             rel_strength_5d := relStrength, etf_dollar_vol_z := etfDollarVolZ,
             breadth_above_ema21 := breadth, rank := 0 }

/-- The composite score of `rankSectorMetrics` (lines 586-596):
`w1 = 0.5`, `w2 = 0.3`, `w3 = 0.2`. -/
def compositeScore (m : SectorMetricRow) : ℚ :=
  0.5 * m.rel_strength_5d + 0.3 * m.breadth_above_ema21 + 0.2 * m.etf_dollar_vol_z

/-- `rankSectorMetrics` (lines 585-602).  The JS comparator
`(a, b) => b.score - a.score` puts `a` no later than `b` exactly when
`b.score ≤ a.score`, and `Array.prototype.sort` is stable, so the sort is
modelled by the (stable) `List.mergeSort` with that relation; the
`forEach` then overwrites `rank` with the 1-based position. -/
def rankSectorMetrics (metrics : List SectorMetricRow) : List SectorMetricRow :=
  let scored := metrics.map fun m => (compositeScore m, m)
  let sorted := scored.mergeSort fun a b => decide (b.1 ≤ a.1)
  sorted.enum.map fun p => { p.2.2 with rank := p.1 + 1 }

/-- A JS number as produced by `Number(string)`: finite, `NaN`, or a
signed infinity. -/
inductive JsNum where
  | nan
  | inf
  | ninf
  | num (q : ℚ)
  deriving DecidableEq, Repr

/-- JS `Number.isFinite`. -/
def JsNum.isFinite : JsNum → Bool
  | .num _ => true
  | _ => false

/-- JS `String.prototype.trim` on a character list. -/
def trimChars (cs : List Char) : List Char :=
  ((cs.dropWhile Char.isWhitespace).reverse.dropWhile Char.isWhitespace).reverse

/-- JS `string.split(sep)` for a one-character separator, on character
lists; like in JS, the result is never empty and splitting the empty
string gives `[""]`. -/
def splitOnChar (sep : Char) : List Char → List (List Char)
  | [] => [[]]
  | c :: rest =>
    let r := splitOnChar sep rest
    if c = sep then [] :: r
    else
      match r with
      | [] => [[c]]
      | g :: gs => (c :: g) :: gs

/-- Digit list to natural number, most significant first. -/
def digitsToNat (ds : List Char) : ℕ :=
  ds.foldl (fun n c => n * 10 + (c.toNat - '0'.toNat)) 0

/-- The decimal-literal part of JS `Number(string)` on an already trimmed,
nonempty character list: optional sign, integer and/or fractional digits,
optional exponent.  Anything else is `NaN`.  (The hexadecimal, octal and
binary literal forms accepted by `Number` are not modelled; no claim and
no data row in this repository uses them.) -/
def parseDecimal (cs : List Char) : JsNum :=
  let signAndRest : ℚ × List Char :=
    match cs with
    | '-' :: r => (-1, r)
    | '+' :: r => (1, r)
    | _ => (1, cs)
  let sign := signAndRest.1
  let afterSign := signAndRest.2
  let intPart := afterSign.takeWhile Char.isDigit
  let afterInt := afterSign.dropWhile Char.isDigit
  let fracAndRest : List Char × List Char :=
    match afterInt with
    | '.' :: r => (r.takeWhile Char.isDigit, r.dropWhile Char.isDigit)
    | _ => ([], afterInt)
  let fracPart := fracAndRest.1
  let afterFrac := fracAndRest.2
  if intPart = [] ∧ fracPart = [] then .nan
  else
    let mantissa : ℚ :=
      (digitsToNat intPart : ℚ) + (digitsToNat fracPart : ℚ) / (10 : ℚ) ^ fracPart.length
    match afterFrac with
    | [] => .num (sign * mantissa)
    | e :: r =>
      if e = 'e' ∨ e = 'E' then
        let expSignAndRest : Bool × List Char :=
          match r with
          | '-' :: rr => (true, rr)
          | '+' :: rr => (false, rr)
          | _ => (false, r)
        let expDigits := expSignAndRest.2.takeWhile Char.isDigit
        let afterExp := expSignAndRest.2.dropWhile Char.isDigit
        if expDigits = [] ∨ afterExp ≠ [] then .nan
        else if expSignAndRest.1 then
          .num (sign * mantissa / (10 : ℚ) ^ digitsToNat expDigits)
        else .num (sign * mantissa * (10 : ℚ) ^ digitsToNat expDigits)
      else .nan

/-- JS `Number(string)` on a character list: trims, maps the empty string
to `0` and the `Infinity` literals to the infinities, and otherwise parses
a decimal literal. -/
def jsNumberOfChars (cs : List Char) : JsNum :=
  let t := trimChars cs
  if t = [] then .num 0
  else if t = "Infinity".toList ∨ t = "+Infinity".toList then .inf
  else if t = "-Infinity".toList then .ninf
  else parseDecimal t

/-- A parsed Stooq CSV row (the object pushed by `parseStooqCsv`,
lines 252-260).  Every numeric field holds whatever `Number(field)`
produced, so `high`, `low` and `volume` can be `NaN`. -/
structure RawBar where
  symbol : String
  date : String
  opn : JsNum
  high : JsNum
  low : JsNum
  close : JsNum
  volume : JsNum
  deriving DecidableEq, Repr

/-- The body of `parseStooqCsv`'s loop (lines 249-263) for one data line:
destructure the first six comma-separated fields (a missing field and an
empty field are both falsy), `continue` (here: `none`) when any is falsy,
convert with `Number`, and `continue` unless `open` and `close` are
finite. -/
def parseStooqRow (symbol : String) (line : List Char) : Option RawBar :=
  let fields := splitOnChar ',' line
  let date := fields.getD 0 []
  let opnF := fields.getD 1 []
  let highF := fields.getD 2 []
  let lowF := fields.getD 3 []
  let closeF := fields.getD 4 []
  let volumeF := fields.getD 5 []
  if date = [] ∨ opnF = [] ∨ highF = [] ∨ lowF = [] ∨ closeF = [] ∨ volumeF = [] then none
  else
    let parsed : RawBar :=
      { symbol := symbol, date := ⟨trimChars date⟩, opn := jsNumberOfChars opnF,
        high := jsNumberOfChars highF, low := jsNumberOfChars lowF,
        close := jsNumberOfChars closeF, volume := jsNumberOfChars volumeF }
    if ¬parsed.opn.isFinite ∨ ¬parsed.close.isFinite then none
    else some parsed

/-- The line list `parseStooqCsv` iterates over: `csv.trim().split('\n')`. -/
def stooqLines (csv : String) : List (List Char) :=
  splitOnChar '\n' (trimChars csv.toList)

/-- `parseStooqCsv` (lines 245-265): header-only or empty input gives no
bars; otherwise the loop over the data lines pushes exactly the rows
`parseStooqRow` accepts, i.e. a `filterMap`. -/
def parseStooqCsv (symbol : String) (csv : String) : List RawBar :=
  let lines := stooqLines csv
  if lines.length ≤ 1 then []
  else (lines.drop 1).filterMap (parseStooqRow symbol)

/-- A JSON-ish JS runtime value, as far as the request parsers inspect
it: strings, numbers, booleans, `null`, `undefined`, arrays. -/
inductive JsValue where
  | vStr (s : String)
  | vNum (q : ℚ)
  | vBool (b : Bool)
  | vNull
  | vUndefined
  | vArr (items : List JsValue)
  deriving Repr

/-- JS `String.prototype.trim` on a `String`. -/
def jsTrim (s : String) : String :=
  ⟨trimChars s.toList⟩

/-- Property access `payload.key` on an object body: `undefined` when the
key is absent. -/
def getField (body : List (String × JsValue)) (key : String) : JsValue :=
  match body.lookup key with
  | some v => v
  | none => .vUndefined

/-- `ensureString` (lines 149-154): throws unless the value is a string
with nonempty trimmed form; returns the original (untrimmed) string. -/
def ensureString (value : JsValue) (field : String) : Except String String :=
  match value with
  | .vStr s =>
    if jsTrim s = "" then .error (field ++ " must be a non-empty string")
    else .ok s
  | _ => .error (field ++ " must be a non-empty string")

/-- One item check of `ensureStringArray`'s loop: the item is a string
whose trimmed form is nonempty. -/
def isGoodStringItem : JsValue → Bool
  | .vStr s => decide (jsTrim s ≠ "")
  | _ => false

/-- `ensureStringArray` (lines 156-166): throws on a non-array or empty
array, and on any item that is not a nonempty string; returns the strings.
(The `.getD ""` default is never used: every item passed `isGoodStringItem`.) -/
def ensureStringArray (value : JsValue) (field : String) : Except String (List String) :=
  match value with
  | .vArr items =>
    if items.length = 0 then .error (field ++ " must be a non-empty array of strings")
    else if items.all isGoodStringItem then
      .ok (items.map fun item => match item with | .vStr s => s | _ => "")
    else .error (field ++ " must contain only non-empty strings")
  | _ => .error (field ++ " must be a non-empty array of strings")

/-- `ComputeIndicatorsRequest` of the source. -/
structure ComputeIndicatorsRequest where
  asOfDate : String
  symbols : List String
  lookbackDays : Option ℚ
  deriving DecidableEq, Repr

/-- `parseComputeIndicators` (lines 177-188): `lookbackDays` is coerced to
`undefined` unless it is a number `> 0`, and only the `asOfDate` and
`symbols` validations can throw. -/
def parseComputeIndicators (body : List (String × JsValue)) :
    Except String ComputeIndicatorsRequest :=
  let lookbackDays : Option ℚ :=
    match getField body "lookbackDays" with
    | .vNum q => if 0 < q then some q else none
    | _ => none
  match ensureString (getField body "asOfDate") "asOfDate" with
  | .error e => .error e
  | .ok asOfDate =>
    match ensureStringArray (getField body "symbols") "symbols" with
    | .error e => .error e
    | .ok symbols =>
      .ok { asOfDate := asOfDate, symbols := symbols, lookbackDays := lookbackDays }

/-- The lookback fallback of the `computeIndicators` handler (line 643):
`payload.lookbackDays ?? 260`. -/
def resolveLookbackDays (payload : ComputeIndicatorsRequest) : ℚ :=
  payload.lookbackDays.getD 260

/-- Spec-side: the value is a string that is nonempty (after trimming, the
sense in which `ensureString`'s own error message uses "non-empty"). -/
def isNonEmptyStringVal : JsValue → Bool
  | .vStr s => decide (jsTrim s ≠ "")
  | _ => false

/-- Spec-side: the value is a nonempty array of nonempty strings. -/
def isNonEmptyStringArrayVal : JsValue → Bool
  | .vArr items => !items.isEmpty && items.all isGoodStringItem
  | _ => false

/-- Spec-side: the value is a number strictly greater than zero. -/
def isPositiveNumberVal : JsValue → Bool
  | .vNum q => decide (0 < q)
  | _ => false

/-- Modelled from the spec's words for the EMA recurrence: apply
`ema' = v*k + ema*(1-k)` forward through the list. -/
def emaSmooth (k : ℚ) : ℚ → List ℚ → ℚ
  | ema, [] => ema
  | ema, v :: rest => emaSmooth k (v * k + ema * (1 - k)) rest

/-- Modelled from the spec's words (§4.1): seed with the simple average of
the first `period` values, then smooth with `k = 2/(period+1)` through the
remaining values. -/
def emaFromSpec (values : List ℚ) (period : ℕ) : ℚ :=
  emaSmooth (2 / ((period : ℚ) + 1)) ((values.take period).sum / (period : ℚ))
    (values.drop period)

/-- Modelled from the spec's words (§4.2 step 4): breadth is the fraction,
over the member symbols having both an EMA21 and a latest close in the
loaded rows, of those whose close strictly exceeds their EMA21; `0` when
no member has both. -/
def breadthFromSpec (memberSymbols : List String) (indicatorRows : List IndicatorValueRow)
    (priceRows : List CloseRow) : ℚ :=
  let pairs := memberSymbols.filterMap
    (breadthPair (jsMapGet (indicatorRows.map fun r => (r.symbol, r.ema21)))
      (jsMapGet (priceRows.map fun r => (r.symbol, r.close))))
  if pairs.length = 0 then 0
  else ((pairs.countP fun q => decide (q.2 < q.1)) : ℚ) / (pairs.length : ℚ)

/-- A sector metric with its (mutable, output-only) `rank` field reset,
used to compare ranked output rows with input rows. -/
def stripRank (m : SectorMetricRow) : SectorMetricRow :=
  { m with rank := 0 }

/-- A 15-bar history whose closes are all `-1` (and high = low = 0, so
every true range is `1`). -/
def negCloseBars : List PriceBar :=
  List.replicate 15
    { symbol := "X", date := "d", opn := 0, high := 0, low := 0, close := -1, volume := 0 }

/-- A 15-bar history of completely flat, positive bars. -/
def flatBars : List PriceBar :=
  List.replicate 15
    { symbol := "X", date := "d", opn := 1, high := 1, low := 1, close := 1, volume := 0 }

/-- The bar every entry of `flatBars` equals. -/
def flatBar : PriceBar :=
  { symbol := "X", date := "d", opn := 1, high := 1, low := 1, close := 1, volume := 0 }

/-- The two-row SPY CSV of the spec's parsing scenario. -/
def spyCsv : String :=
  "Date,Open,High,Low,Close,Volume\n2026-02-12,10,12,9,11,100\n2026-02-13,11,13,10,12,200"

/-- A one-symbol flat bar at a given date and close. -/
def mkBar (date : String) (c : ℚ) : PriceBar :=
  { symbol := "E", date := date, opn := c, high := c, low := c, close := c, volume := 1 }

/-- Concrete sector parameters with six ETF bars, six benchmark bars and
one member that has both an EMA21 and a close. -/
def demoParams : SectorMetricParams :=
  { sectorId := "s", etfSymbol := "E", benchmark := "B", weekEndDate := "w",
    etfBars := [mkBar "1" 1, mkBar "2" 2, mkBar "3" 3, mkBar "4" 4, mkBar "5" 5, mkBar "6" 6],
    benchBars := [mkBar "1" 1, mkBar "2" 1, mkBar "3" 1, mkBar "4" 1, mkBar "5" 1, mkBar "6" 2],
    memberSymbols := ["A"], indicatorRows := [⟨"A", 1⟩], priceRows := [⟨"A", 2⟩] }

/-- Two hundred flat bars, all dated `"d"`, with varying volume. -/
def manyBars : List PriceBar :=
  (List.range 200).map fun i =>
    { symbol := "A", date := "d", opn := 1, high := 1, low := 1, close := 1, volume := (i : ℚ) }

/-- The sector metric row that `computeSectorMetric` produces on
`demoParams`. -/
def demoRow : SectorMetricRow :=
  { sector_id := "s", week_end_date := "w", etf_symbol := "E", bench_symbol := "B",
    etf_5d_return := 5, bench_5d_return := 1, rel_strength_5d := 4,
    etf_dollar_vol_z := 0, breadth_above_ema21 := 1, rank := 0 }

/-- The bar parsed from the row `2026-02-12,10,abc,9,11,xyz`: kept, with
`NaN` in `high` and `volume`. -/
def nanBar : RawBar :=
  { symbol := "SPY", date := "2026-02-12", opn := .num 10, high := .nan,
    low := .num 9, close := .num 11, volume := .nan }

/-- A request body whose `lookbackDays` is a negative number. -/
def negLookbackBody : List (String × JsValue) :=
  [("asOfDate", .vStr "2026-02-13"), ("symbols", .vArr [.vStr "SPY"]),
   ("lookbackDays", .vNum (-5))]

/-- A request body whose `asOfDate` is the nonempty, all-whitespace
string `" "`. -/
def blankAsOfBody : List (String × JsValue) :=
  [("asOfDate", .vStr " "), ("symbols", .vArr [.vStr "SPY"])]

/-! ## Helper lemmas -/

theorem foldl_add_map (f : α → ℚ) (l : List α) (a : ℚ) :
    l.foldl (fun s v => s + f v) a = a + (l.map f).sum := by
  induction l generalizing a with
  | nil => simp
  | cons x xs ih => simp [ih]; ring

theorem foldl_add_sum (l : List ℚ) (a : ℚ) :
    l.foldl (· + ·) a = a + l.sum := by
  simpa using foldl_add_map id l a

theorem emaSmooth_eq_foldl (k : ℚ) :
    ∀ (l : List ℚ) (a : ℚ),
      l.foldl (fun ema v => v * k + ema * (1 - k)) a = emaSmooth k a l := by
  intro l
  induction l with
  | nil => intro a; rfl
  | cons x xs ih => intro a; simp only [List.foldl_cons, emaSmooth, ih]

theorem computeZScore_of_two_le (sqrt : ℚ → ℚ) (v : List ℚ) (h : 2 ≤ v.length) :
    ∃ z, computeZScore sqrt v = some z := by
  simp only [computeZScore]
  rw [if_neg (by omega)]
  split <;> exact ⟨_, rfl⟩

/-! ## C2: `computeEma` -/

/-- C2: `computeEma values period` is `none` exactly when the series is
shorter than the period; otherwise it returns the spec's recurrence —
seed with the simple average of the first `period` values, then fold each
remaining `v` as `ema' = v*k + ema*(1-k)` with `k = 2/(period+1)`; and in
particular `computeEma [1,2,3,4,5] 3 = 4`. -/
theorem computeEma_correct (values : List ℚ) (period : ℕ) :
    (computeEma values period = none ↔ values.length < period) ∧
    (period ≤ values.length →
      computeEma values period = some (emaFromSpec values period)) ∧
    computeEma [1, 2, 3, 4, 5] 3 = some 4 := by
  refine ⟨?_, ?_, by decide⟩
  · simp only [computeEma]
    split
    · simp [*]
    · simp
      omega
  · intro h
    simp only [computeEma, emaFromSpec]
    rw [if_neg (by omega), ← emaSmooth_eq_foldl, foldl_add_sum, zero_add]

theorem computeEma_correct_witness :
    3 ≤ ([1, 2, 3, 4, 5] : List ℚ).length ∧
    computeEma [1, 2, 3, 4, 5] 3 = some (emaFromSpec [1, 2, 3, 4, 5] 3) :=
  ⟨by decide, (computeEma_correct [1, 2, 3, 4, 5] 3).2.1 (by decide)⟩

/-! ## C6: `computeZScore` on constant series -/

/-- C6: a series of fewer than 2 points has no z-score, and the z-score of
a constant series of length at least 2 is exactly 0 (the
zero-standard-deviation branch); `sqrt` is any model of `Math.sqrt`, which
only needs to vanish at 0 here. -/
theorem computeZScore_constant (sqrt : ℚ → ℚ) (values : List ℚ) (c : ℚ)
    (hsqrt : sqrt 0 = 0) :
    (values.length < 2 → computeZScore sqrt values = none) ∧
    (2 ≤ values.length → (∀ x ∈ values, x = c) →
      computeZScore sqrt values = some 0) := by
  constructor
  · intro h
    simp only [computeZScore]
    rw [if_pos h]
  · intro hlen hconst
    obtain ⟨n, hn⟩ : ∃ n, values.length = n := ⟨_, rfl⟩
    have hrep := List.eq_replicate_of_mem hconst
    rw [hn] at hrep hlen
    rw [hrep]
    simp only [computeZScore, List.length_replicate]
    rw [if_neg (by omega)]
    have hc : (n : ℚ) ≠ 0 := Nat.cast_ne_zero.mpr (by omega)
    have h1 : (List.replicate n c).foldl (· + ·) (0 : ℚ) = (n : ℚ) * c := by
      rw [foldl_add_sum, zero_add, List.sum_replicate, nsmul_eq_mul]
    rw [h1, mul_div_cancel_left₀ c hc]
    have h2 : (List.replicate n c).foldl (fun s v => s + (v - c) ^ 2) (0 : ℚ) = 0 := by
      rw [foldl_add_map (fun v => (v - c) ^ 2), List.map_replicate]
      simp
    rw [h2, zero_div, hsqrt, if_pos rfl]

theorem computeZScore_constant_witness :
    computeZScore (fun q => q) [(5 : ℚ), 5] = some 0 :=
  (computeZScore_constant (fun q => q) [(5 : ℚ), 5] 5 rfl).2 (by decide) (by decide)

/-! ## C4: `computeAtrPct` -/

/-- C4 counterexample: the claim "whenever `computeAtrPct bars 14` is
non-null the value is non-negative" fails on a 15-bar history whose
closes are `-1` (true range 1, ATR 1, latest close `-1`): the result is
`-1 < 0`. -/
theorem computeAtrPct_negative_output :
    computeAtrPct negCloseBars 14 = some (-1) ∧ ((-1 : ℚ) < 0) :=
  ⟨by decide, by norm_num⟩

/-- C4 (amended): `computeAtrPct bars 14` is `none` when there are fewer
than 15 bars or the latest close is zero, and whenever the latest close is
positive any non-null result is non-negative.  (The unamended claim —
non-negativity for every bar list — fails when the latest close is
negative, see the counterexample.) -/
theorem computeAtrPct_spec (bars : List PriceBar) :
    (bars.length < 15 → computeAtrPct bars 14 = none) ∧
    (∀ lastBar, bars.getLast? = some lastBar → lastBar.close = 0 →
      computeAtrPct bars 14 = none) ∧
    (∀ lastBar q, bars.getLast? = some lastBar → 0 < lastBar.close →
      computeAtrPct bars 14 = some q → 0 ≤ q) := by
  refine ⟨fun h => ?_, fun lastBar hlast h0 => ?_, fun lastBar q hlast hpos hq => ?_⟩
  · simp only [computeAtrPct]
    rw [if_pos (by omega)]
  · by_cases hlen : bars.length < 14 + 1
    · simp only [computeAtrPct]
      rw [if_pos hlen]
    · simp only [computeAtrPct, hlast]
      rw [if_neg hlen, if_neg (by simp; omega), if_pos h0]
  · by_cases hlen : bars.length < 14 + 1
    · simp only [computeAtrPct, if_pos hlen] at hq
      exact Option.noConfusion hq
    · simp only [computeAtrPct, hlast] at hq
      rw [if_neg hlen, if_neg (by simp; omega), if_neg (by positivity)] at hq
      obtain rfl : _ = q := Option.some.inj hq
      have htr : ∀ x ∈ (((bars.drop 1).zip bars).map fun p =>
          max (p.1.high - p.1.low) (max |p.1.high - p.2.close| |p.1.low - p.2.close|)),
          (0 : ℚ) ≤ x := by
        intro x hx
        obtain ⟨p, -, rfl⟩ := List.mem_map.mp hx
        exact le_trans (abs_nonneg _) (le_trans (le_max_left _ _) (le_max_right _ _))
      have hsum : (0 : ℚ) ≤ (jsSliceLast 14 (((bars.drop 1).zip bars).map fun p =>
          max (p.1.high - p.1.low) (max |p.1.high - p.2.close| |p.1.low - p.2.close|))).foldl
          (· + ·) 0 := by
        rw [foldl_add_sum, zero_add]
        refine List.sum_nonneg fun x hx => htr x ?_
        exact List.mem_of_mem_drop hx
      exact div_nonneg (div_nonneg hsum (by norm_num)) (le_of_lt hpos)

theorem computeAtrPct_spec_witness :
    flatBars.getLast? = some flatBar ∧ (0 : ℚ) < flatBar.close ∧
    computeAtrPct flatBars 14 = some 0 ∧ (0 : ℚ) ≤ 0 :=
  ⟨by decide, by decide, by decide,
    (computeAtrPct_spec flatBars).2.2 flatBar 0 (by decide) (by decide) (by decide)⟩

/-! ## C5: `computeSectorMetric` returns -/

/-- C5: `computeSectorMetric` is `none` whenever the ETF or benchmark bar
list has fewer than 6 bars; otherwise it returns a row whose
`etf_5d_return` is `last close / 6th-from-last close - 1`, whose
`bench_5d_return` is the same over the benchmark bars, and whose
`rel_strength_5d` is their difference. -/
theorem computeSectorMetric_returns (sqrt : ℚ → ℚ) (p : SectorMetricParams) :
    (p.etfBars.length < 6 ∨ p.benchBars.length < 6 →
      computeSectorMetric sqrt p = none) ∧
    (6 ≤ p.etfBars.length → 6 ≤ p.benchBars.length →
      ∃ r, computeSectorMetric sqrt p = some r ∧
        r.etf_5d_return = (p.etfBars.getD (p.etfBars.length - 1) default).close /
          (p.etfBars.getD (p.etfBars.length - 6) default).close - 1 ∧
        r.bench_5d_return = (p.benchBars.getD (p.benchBars.length - 1) default).close /
          (p.benchBars.getD (p.benchBars.length - 6) default).close - 1 ∧
        r.rel_strength_5d = r.etf_5d_return - r.bench_5d_return) := by
  constructor
  · intro h
    simp only [computeSectorMetric]
    rw [if_pos h]
  · intro h1 h2
    have hzlen : 2 ≤ (jsSliceLast 60 (p.etfBars.map fun b => b.close * b.volume)).length := by
      simp only [jsSliceLast, List.length_drop, List.length_map]
      omega
    obtain ⟨z, hz⟩ := computeZScore_of_two_le sqrt _ hzlen
    simp only [computeSectorMetric]
    rw [if_neg (by omega), hz]
    exact ⟨_, rfl, rfl, rfl, rfl⟩

theorem computeSectorMetric_returns_witness :
    6 ≤ demoParams.etfBars.length ∧ 6 ≤ demoParams.benchBars.length ∧
    (∃ r, computeSectorMetric (fun _ => 0) demoParams = some r ∧
      r.etf_5d_return = (demoParams.etfBars.getD (demoParams.etfBars.length - 1) default).close /
        (demoParams.etfBars.getD (demoParams.etfBars.length - 6) default).close - 1 ∧
      r.bench_5d_return =
        (demoParams.benchBars.getD (demoParams.benchBars.length - 1) default).close /
          (demoParams.benchBars.getD (demoParams.benchBars.length - 6) default).close - 1 ∧
      r.rel_strength_5d = r.etf_5d_return - r.bench_5d_return) :=
  ⟨by decide, by decide,
    (computeSectorMetric_returns (fun _ => 0) demoParams).2 (by decide) (by decide)⟩

/-! ## C7: breadth -/

theorem breadthStep_foldl (f g : String → Option ℚ) :
    ∀ (syms : List String) (a b : ℕ),
      syms.foldl (breadthStep f g) (a, b) =
        (a + (syms.filterMap (breadthPair f g)).countP (fun q => decide (q.2 < q.1)),
         b + (syms.filterMap (breadthPair f g)).length) := by
  intro syms
  induction syms with
  | nil => simp
  | cons s ss ih =>
    intro a b
    rcases hf : f s with _ | e <;> rcases hg : g s with _ | c <;>
      simp only [List.foldl_cons, List.filterMap_cons, breadthStep, breadthPair, hf, hg] <;>
      try exact ih a b
    rw [ih]
    by_cases hec : e < c <;> simp [hec, List.countP_cons, Prod.ext_iff] <;> omega

/-- C7: in every non-null result of `computeSectorMetric`, the breadth is
the fraction, over member symbols with both a latest close and an EMA21
present, of members whose close strictly exceeds their EMA21 — and `0`
when no member has both (including an empty member list). -/
theorem computeSectorMetric_breadth (sqrt : ℚ → ℚ) (p : SectorMetricParams)
    (r : SectorMetricRow) (h : computeSectorMetric sqrt p = some r) :
    r.breadth_above_ema21 = breadthFromSpec p.memberSymbols p.indicatorRows p.priceRows := by
  simp only [computeSectorMetric] at h
  by_cases hguard : p.etfBars.length < 6 ∨ p.benchBars.length < 6
  · rw [if_pos hguard] at h
    exact Option.noConfusion h
  · rw [if_neg hguard] at h
    rcases hz : computeZScore sqrt (jsSliceLast 60 (p.etfBars.map fun b => b.close * b.volume))
      with _ | z
    · rw [hz] at h
      exact Option.noConfusion h
    · rw [hz] at h
      obtain rfl : _ = r := Option.some.inj h
      dsimp only
      simp only [breadthFromSpec]
      by_cases hm : p.memberSymbols.isEmpty
      · rw [if_pos hm, List.isEmpty_iff.mp hm]
        simp
      · rw [if_neg hm, breadthStep_foldl]
        simp only [zero_add]

theorem computeSectorMetric_breadth_witness :
    computeSectorMetric (fun _ => 0) demoParams = some demoRow ∧
    demoRow.breadth_above_ema21 =
      breadthFromSpec demoParams.memberSymbols demoParams.indicatorRows demoParams.priceRows :=
  ⟨by decide, computeSectorMetric_breadth (fun _ => 0) demoParams demoRow (by decide)⟩

/-! ## C3: `computeIndicatorsFromBars` -/

/-- C3: `computeIndicatorsFromBars` produces a row exactly when the last
bar exists and is dated at the as-of date, the three EMAs, the ATR%, the
RS slope and the volume z-score are all non-null, and the benchmark close
at the as-of date is present and nonzero; in every other case (including
an empty bar list, a missing benchmark close and a zero benchmark close)
it returns `none` — it is a total function, so no exception and no
partially filled row is possible. -/
theorem computeIndicatorsFromBars_spec (sqrt : ℚ → ℚ) (symbol asOfDate : String)
    (bars : List PriceBar) (spyCloseByDate : List (String × ℚ)) :
    (computeIndicatorsFromBars sqrt symbol asOfDate bars spyCloseByDate ≠ none ↔
      ((∃ lastBar, bars.getLast? = some lastBar ∧ lastBar.date = asOfDate) ∧
       (computeEma (bars.map fun b => b.close) 21).isSome = true ∧
       (computeEma (bars.map fun b => b.close) 50).isSome = true ∧
       (computeEma (bars.map fun b => b.close) 200).isSome = true ∧
       (computeAtrPct bars 14).isSome = true ∧
       (∃ c, jsMapGet spyCloseByDate asOfDate = some c ∧ c ≠ 0) ∧
       (computeSlope (jsSliceLast 10 (rsSeriesOf bars spyCloseByDate))).isSome = true ∧
       (computeZScore sqrt ((jsSliceLast 60 bars).map fun b => b.volume)).isSome = true)) ∧
    computeIndicatorsFromBars sqrt symbol asOfDate [] spyCloseByDate = none := by
  refine ⟨?_, rfl⟩
  rcases hlast : bars.getLast? with _ | lastBar
  · simp [computeIndicatorsFromBars, hlast]
  · simp only [computeIndicatorsFromBars, hlast]
    by_cases hdate : lastBar.date ≠ asOfDate
    · rw [if_pos hdate]
      simp [hdate]
    · rw [if_neg hdate]
      have hdate' : lastBar.date = asOfDate := not_not.mp hdate
      rcases h21 : computeEma (bars.map fun b => b.close) 21 with _ | e21
      · simp [*]
      rcases h50 : computeEma (bars.map fun b => b.close) 50 with _ | e50
      · simp [*]
      rcases h200 : computeEma (bars.map fun b => b.close) 200 with _ | e200
      · simp [*]
      rcases hatr : computeAtrPct bars 14 with _ | atr
      · simp [*]
      rcases hspy : jsMapGet spyCloseByDate asOfDate with _ | c
      · simp [*]
      by_cases hc : c = 0
      · simp [*]
      rcases hslope : computeSlope (jsSliceLast 10 (rsSeriesOf bars spyCloseByDate)) with _ | sl
      · simp [*]
      rcases hzsc : computeZScore sqrt ((jsSliceLast 60 bars).map fun b => b.volume) with _ | vz
      · simp [*]
      simp [*]

set_option maxRecDepth 40000 in
theorem computeIndicatorsFromBars_spec_witness :
    computeIndicatorsFromBars (fun _ => 0) "A" "d" manyBars [("d", 1)] ≠ none :=
  (computeIndicatorsFromBars_spec (fun _ => 0) "A" "d" manyBars [("d", 1)]).1.mpr
    ⟨⟨{ symbol := "A", date := "d", opn := 1, high := 1, low := 1, close := 1, volume := 199 },
      by decide, by decide⟩,
      by decide, by decide, by decide, by decide, ⟨1, by decide, by decide⟩, by decide, by decide⟩

/-! ## C1: `rankSectorMetrics` -/

/-- C1: `rankSectorMetrics` scores every row as
`0.5*rel_strength_5d + 0.3*breadth_above_ema21 + 0.2*etf_dollar_vol_z`,
returns a permutation of the input rows (up to the overwritten `rank`
field) ordered descending by score, keeps the input order on exact score
ties (the filtered subsequence at any fixed score is unchanged), and
assigns `rank = 1`-based position, so the ranks are the list `1..N`
exactly. -/
theorem rankSectorMetrics_spec (metrics : List SectorMetricRow) :
    (∀ m, compositeScore m =
      0.5 * m.rel_strength_5d + 0.3 * m.breadth_above_ema21 + 0.2 * m.etf_dollar_vol_z) ∧
    (rankSectorMetrics metrics).map (fun m => m.rank) =
      (List.range metrics.length).map (fun i => i + 1) ∧
    ((rankSectorMetrics metrics).map stripRank).Perm (metrics.map stripRank) ∧
    (rankSectorMetrics metrics).Pairwise
      (fun a b => compositeScore b ≤ compositeScore a) ∧
    (∀ s : ℚ, ((rankSectorMetrics metrics).map stripRank).filter
        (fun m => decide (compositeScore m = s)) =
      (metrics.map stripRank).filter (fun m => decide (compositeScore m = s))) := by
  have htrans : ∀ a b c : ℚ × SectorMetricRow,
      decide (b.1 ≤ a.1) = true → decide (c.1 ≤ b.1) = true →
      decide (c.1 ≤ a.1) = true := by
    intro a b c hab hbc
    simp only [decide_eq_true_eq] at *
    exact le_trans hbc hab
  have htotal : ∀ a b : ℚ × SectorMetricRow,
      (decide (b.1 ≤ a.1) || decide (a.1 ≤ b.1)) = true := by
    intro a b
    simp only [Bool.or_eq_true, decide_eq_true_eq]
    exact le_total b.1 a.1
  have hmemsorted : ∀ x ∈ (metrics.map fun m => (compositeScore m, m)).mergeSort
      (fun a b => decide (b.1 ≤ a.1)), x.1 = compositeScore x.2 := by
    intro x hx
    obtain ⟨m, -, rfl⟩ := List.mem_map.mp (List.mem_mergeSort.mp hx)
    rfl
  have hstrip : (stripRank ∘ fun p : ℕ × ℚ × SectorMetricRow =>
      ({ p.2.2 with rank := p.1 + 1 } : SectorMetricRow)) =
      ((fun q : ℚ × SectorMetricRow => stripRank q.2) ∘ Prod.snd) := rfl
  have hmapstrip : (rankSectorMetrics metrics).map stripRank =
      ((metrics.map fun m => (compositeScore m, m)).mergeSort
        (fun a b => decide (b.1 ≤ a.1))).map fun q => stripRank q.2 := by
    simp only [rankSectorMetrics]
    rw [List.map_map, hstrip, ← List.map_map, List.enum_map_snd]
  have hscoredstrip : metrics.map stripRank =
      (metrics.map fun m => (compositeScore m, m)).map fun q => stripRank q.2 := by
    rw [List.map_map]
    exact rfl
  refine ⟨fun m => rfl, ?_, ?_, ?_, ?_⟩
  · simp only [rankSectorMetrics]
    rw [List.map_map]
    have h1 : ((fun m : SectorMetricRow => m.rank) ∘ fun p : ℕ × ℚ × SectorMetricRow =>
        ({ p.2.2 with rank := p.1 + 1 } : SectorMetricRow)) =
        ((fun i => i + 1) ∘ Prod.fst) := rfl
    rw [h1, ← List.map_map, List.enum_map_fst, List.length_mergeSort, List.length_map]
  · rw [hmapstrip, hscoredstrip]
    exact (List.mergeSort_perm _ _).map _
  · have hsorted := List.sorted_mergeSort htrans htotal
      (metrics.map fun m => (compositeScore m, m))
    have hp2 : ((metrics.map fun m => (compositeScore m, m)).mergeSort
        (fun a b => decide (b.1 ≤ a.1))).Pairwise
        (fun a b : ℚ × SectorMetricRow => compositeScore b.2 ≤ compositeScore a.2) := by
      refine hsorted.imp_of_mem ?_
      intro a b ha hb hab
      have h := of_decide_eq_true hab
      rwa [hmemsorted a ha, hmemsorted b hb] at h
    simp only [rankSectorMetrics]
    rw [List.pairwise_map]
    have h3 : (((metrics.map fun m => (compositeScore m, m)).mergeSort
        (fun a b => decide (b.1 ≤ a.1))).enum.map Prod.snd).Pairwise
        (fun a b : ℚ × SectorMetricRow => compositeScore b.2 ≤ compositeScore a.2) := by
      rw [List.enum_map_snd]
      exact hp2
    exact List.pairwise_map.mp h3
  · intro s
    have hcongr : ∀ (l : List (ℚ × SectorMetricRow)),
        (∀ x ∈ l, x.1 = compositeScore x.2) →
        l.filter ((fun m => decide (compositeScore m = s)) ∘ fun q => stripRank q.2) =
        l.filter fun x => decide (x.1 = s) := by
      intro l hl
      refine List.filter_congr ?_
      intro x hx
      show decide (compositeScore (stripRank x.2) = s) = decide (x.1 = s)
      rw [hl x hx]
      rfl
    have hmemscored : ∀ x ∈ metrics.map fun m => (compositeScore m, m),
        x.1 = compositeScore x.2 := by
      intro x hx
      obtain ⟨m, -, rfl⟩ := List.mem_map.mp hx
      rfl
    have hallfilter : ∀ x ∈ (metrics.map fun m => (compositeScore m, m)).filter
        (fun x => decide (x.1 = s)), decide (x.1 = s) = true :=
      fun x hx => (List.mem_filter.mp hx).2
    have hpairwise : ((metrics.map fun m => (compositeScore m, m)).filter
        (fun x => decide (x.1 = s))).Pairwise (fun a b => decide (b.1 ≤ a.1) = true) := by
      refine List.pairwise_of_forall_mem_list ?_
      intro a ha b hb
      have h1 : a.1 = s := of_decide_eq_true (hallfilter a ha)
      have h2 : b.1 = s := of_decide_eq_true (hallfilter b hb)
      simp [h1, h2]
    have hsub : List.Sublist
        ((metrics.map fun m => (compositeScore m, m)).filter (fun x => decide (x.1 = s)))
        ((metrics.map fun m => (compositeScore m, m)).mergeSort
          (fun a b => decide (b.1 ≤ a.1))) :=
      List.sublist_mergeSort htrans htotal hpairwise (List.filter_sublist _)
    have hsub2 : List.Sublist
        ((metrics.map fun m => (compositeScore m, m)).filter (fun x => decide (x.1 = s)))
        (((metrics.map fun m => (compositeScore m, m)).mergeSort
          (fun a b => decide (b.1 ≤ a.1))).filter (fun x => decide (x.1 = s))) := by
      have h := hsub.filter (fun x => decide (x.1 = s))
      rwa [List.filter_eq_self.mpr hallfilter] at h
    have hperm2 : (((metrics.map fun m => (compositeScore m, m)).mergeSort
        (fun a b => decide (b.1 ≤ a.1))).filter (fun x => decide (x.1 = s))).Perm
        ((metrics.map fun m => (compositeScore m, m)).filter (fun x => decide (x.1 = s))) :=
      (List.mergeSort_perm _ _).filter _
    have key : (((metrics.map fun m => (compositeScore m, m)).mergeSort
        (fun a b => decide (b.1 ≤ a.1))).filter (fun x => decide (x.1 = s))) =
        ((metrics.map fun m => (compositeScore m, m)).filter (fun x => decide (x.1 = s))) :=
      (hsub2.eq_of_length hperm2.length_eq.symm).symm
    rw [hmapstrip, hscoredstrip, List.filter_map, List.filter_map,
      hcongr _ hmemsorted, hcongr _ hmemscored, key]

/-! ## C8: `parseStooqCsv` robustness -/

/-- C8: `parseStooqCsv` is row-local — it equals a `filterMap` of the
per-row parser over the data lines, a row whose open or close is
non-numeric parses to `none`, dropping such a row leaves the parse of the
remaining rows unchanged, and on the two well-formed SPY rows it yields
exactly 2 bars with latest close 12 and latest volume 200.  (Being a total
function, it cannot fail on malformed input.) -/
theorem parseStooqCsv_spec :
    (∀ (symbol : String) (csv : String),
      parseStooqCsv symbol csv = ((stooqLines csv).drop 1).filterMap (parseStooqRow symbol)) ∧
    (∀ (symbol : String) (line : List Char),
      (jsNumberOfChars ((splitOnChar ',' line).getD 1 [])).isFinite = false ∨
      (jsNumberOfChars ((splitOnChar ',' line).getD 4 [])).isFinite = false →
      parseStooqRow symbol line = none) ∧
    (∀ (symbol : String) (pre post : List (List Char)) (line : List Char),
      parseStooqRow symbol line = none →
      (pre ++ line :: post).filterMap (parseStooqRow symbol) =
        (pre ++ post).filterMap (parseStooqRow symbol)) ∧
    (parseStooqCsv "SPY" spyCsv).length = 2 ∧
    ((parseStooqCsv "SPY" spyCsv).getLast?.map fun b => b.close) = some (.num 12) ∧
    ((parseStooqCsv "SPY" spyCsv).getLast?.map fun b => b.volume) = some (.num 200) := by
  refine ⟨?_, ?_, ?_, by decide, by decide, by decide⟩
  · intro symbol csv
    simp only [parseStooqCsv]
    split
    · rw [List.drop_eq_nil_of_le (by omega), List.filterMap_nil]
    · rfl
  · intro symbol line h
    simp only [parseStooqRow]
    split
    · rfl
    · rw [if_pos]
      rcases h with h | h
      · exact Or.inl (by simpa using h)
      · exact Or.inr (by simpa using h)
  · intro symbol pre post line h
    rw [List.filterMap_append, List.filterMap_append, List.filterMap_cons_none h]

theorem parseStooqCsv_spec_witness :
    parseStooqRow "SPY" ("2026-02-12,abc,1,1,5,9".toList) = none :=
  parseStooqCsv_spec.2.1 "SPY" ("2026-02-12,abc,1,1,5,9".toList) (Or.inl (by decide))

/-! ## C9: what `parseStooqCsv` drops and what it keeps -/

/-- C9: the per-row parser drops a row exactly when one of its six fields
is missing or empty, or `Number(open)`/`Number(close)` is non-finite; a
kept row stores `Number(high)`, `Number(low)` and `Number(volume)`
verbatim, so a row with non-numeric text in `high`/`low`/`volume` is kept
with `NaN` in that field (shown on a concrete row), and such `NaN`s flow
into the returned bars. -/
theorem parseStooqRow_only_drops (symbol : String) (line : List Char) :
    (parseStooqRow symbol line = none ↔
      ((splitOnChar ',' line).getD 0 [] = [] ∨ (splitOnChar ',' line).getD 1 [] = [] ∨
       (splitOnChar ',' line).getD 2 [] = [] ∨ (splitOnChar ',' line).getD 3 [] = [] ∨
       (splitOnChar ',' line).getD 4 [] = [] ∨ (splitOnChar ',' line).getD 5 [] = [] ∨
       (jsNumberOfChars ((splitOnChar ',' line).getD 1 [])).isFinite = false ∨
       (jsNumberOfChars ((splitOnChar ',' line).getD 4 [])).isFinite = false)) ∧
    (∀ bar, parseStooqRow symbol line = some bar →
      bar.high = jsNumberOfChars ((splitOnChar ',' line).getD 2 []) ∧
      bar.low = jsNumberOfChars ((splitOnChar ',' line).getD 3 []) ∧
      bar.volume = jsNumberOfChars ((splitOnChar ',' line).getD 5 [])) ∧
    parseStooqRow "SPY" ("2026-02-12,10,abc,9,11,xyz".toList) = some nanBar ∧
    nanBar.high = JsNum.nan ∧ nanBar.volume = JsNum.nan := by
  refine ⟨?_, ?_, by decide, rfl, rfl⟩
  · simp only [parseStooqRow, Bool.not_eq_true]
    split
    next h6 => exact iff_of_true rfl (by tauto)
    next h6 =>
      split
      next hfin => exact iff_of_true rfl (by tauto)
      next hfin =>
        refine iff_of_false (by simp) ?_
        intro hcon
        rcases hcon with h | h | h | h | h | h | h | h
        · exact h6 (by tauto)
        · exact h6 (by tauto)
        · exact h6 (by tauto)
        · exact h6 (by tauto)
        · exact h6 (by tauto)
        · exact h6 (by tauto)
        · exact hfin (by tauto)
        · exact hfin (by tauto)
  · intro bar hbar
    simp only [parseStooqRow] at hbar
    split at hbar
    · exact Option.noConfusion hbar
    · split at hbar
      · exact Option.noConfusion hbar
      · obtain rfl : _ = bar := Option.some.inj hbar
        exact ⟨rfl, rfl, rfl⟩

theorem parseStooqRow_only_drops_witness :
    nanBar.high =
      jsNumberOfChars ((splitOnChar ',' ("2026-02-12,10,abc,9,11,xyz".toList)).getD 2 []) ∧
    nanBar.low =
      jsNumberOfChars ((splitOnChar ',' ("2026-02-12,10,abc,9,11,xyz".toList)).getD 3 []) ∧
    nanBar.volume =
      jsNumberOfChars ((splitOnChar ',' ("2026-02-12,10,abc,9,11,xyz".toList)).getD 5 []) :=
  (parseStooqRow_only_drops "SPY" ("2026-02-12,10,abc,9,11,xyz".toList)).2.1 nanBar (by decide)

/-! ## C10: `parseComputeIndicators` -/

theorem ensureString_error_iff (v : JsValue) (field : String) :
    (∃ e, ensureString v field = .error e) ↔ isNonEmptyStringVal v = false := by
  cases v <;> simp [ensureString, isNonEmptyStringVal]
  case vStr s =>
    by_cases h : jsTrim s = "" <;> simp [h]

theorem ensureStringArray_error_iff (v : JsValue) (field : String) :
    (∃ e, ensureStringArray v field = .error e) ↔ isNonEmptyStringArrayVal v = false := by
  rcases v with s | q | b | _ | _ | items
  · simp [ensureStringArray, isNonEmptyStringArrayVal]
  · simp [ensureStringArray, isNonEmptyStringArrayVal]
  · simp [ensureStringArray, isNonEmptyStringArrayVal]
  · simp [ensureStringArray, isNonEmptyStringArrayVal]
  · simp [ensureStringArray, isNonEmptyStringArrayVal]
  · simp only [ensureStringArray, isNonEmptyStringArrayVal]
    by_cases h0 : items.length = 0
    · rw [if_pos h0]
      simp [List.isEmpty_iff, List.length_eq_zero.mp h0]
    · rw [if_neg h0]
      have hie : items.isEmpty = false := by
        rcases hie : items.isEmpty with _ | _
        · rfl
        · exact absurd (by simp [List.isEmpty_iff.mp hie]) h0
      by_cases hall : items.all isGoodStringItem
      · rw [if_pos hall]
        exact iff_of_false (by simp) (by simp [hie, hall])
      · rw [if_neg hall]
        exact iff_of_true ⟨_, rfl⟩ (by simp [hie, eq_false_of_ne_true hall])

/-- C10 counterexample: with `asOfDate` the whitespace string `" "` — a
non-empty string — and valid `symbols`, `parseComputeIndicators` still
throws, because `ensureString` trims before testing emptiness.  So the
claim's "throws exactly when asOfDate is not a non-empty string or …" is
false as stated. -/
theorem parseComputeIndicators_blank_throws :
    parseComputeIndicators blankAsOfBody = .error "asOfDate must be a non-empty string" ∧
    getField blankAsOfBody "asOfDate" = .vStr " " ∧ (" " : String) ≠ "" ∧
    isNonEmptyStringArrayVal (getField blankAsOfBody "symbols") = true :=
  ⟨rfl, rfl, by decide, by decide⟩

/-- C10 (amended): `parseComputeIndicators` throws exactly when `asOfDate`
is not a string that is nonempty after trimming or `symbols` is not a
nonempty array of such strings (the sense of "non-empty" used by the
validators' own error messages); a `lookbackDays` that is not a positive
number never causes a rejection — it is coerced to `undefined` (`none`),
and the handler's `?? 260` fallback then resolves it to the 260-day
default. -/
theorem parseComputeIndicators_spec (body : List (String × JsValue)) :
    ((∃ e, parseComputeIndicators body = .error e) ↔
      (isNonEmptyStringVal (getField body "asOfDate") = false ∨
       isNonEmptyStringArrayVal (getField body "symbols") = false)) ∧
    (isPositiveNumberVal (getField body "lookbackDays") = false →
      ∀ r, parseComputeIndicators body = .ok r →
        r.lookbackDays = none ∧ resolveLookbackDays r = 260) := by
  constructor
  · rcases hs : ensureString (getField body "asOfDate") "asOfDate" with e | aod
    · refine iff_of_true ?_ (Or.inl ((ensureString_error_iff _ _).mp ⟨e, hs⟩))
      exact ⟨e, by simp only [parseComputeIndicators, hs]⟩
    · rcases ha : ensureStringArray (getField body "symbols") "symbols" with e | syms
      · refine iff_of_true ?_ (Or.inr ((ensureStringArray_error_iff _ _).mp ⟨e, ha⟩))
        exact ⟨e, by simp only [parseComputeIndicators, hs, ha]⟩
      · refine iff_of_false ?_ ?_
        · simp only [parseComputeIndicators, hs, ha]
          simp
        · intro hcon
          rcases hcon with h | h
          · obtain ⟨e, he⟩ := (ensureString_error_iff (getField body "asOfDate") "asOfDate").mpr h
            rw [hs] at he
            exact Except.noConfusion he
          · obtain ⟨e, he⟩ := (ensureStringArray_error_iff (getField body "symbols") "symbols").mpr h
            rw [ha] at he
            exact Except.noConfusion he
  · intro hlb r hr
    have hnone : (match getField body "lookbackDays" with
        | JsValue.vNum q => if 0 < q then some q else none
        | _ => none) = (none : Option ℚ) := by
      rcases hv : getField body "lookbackDays" with s | q | b | _ | _ | items <;> simp
      rw [hv] at hlb
      simp only [isPositiveNumberVal, decide_eq_false_iff_not] at hlb
      exact not_lt.mp hlb
    simp only [parseComputeIndicators, hnone] at hr
    rcases hs : ensureString (getField body "asOfDate") "asOfDate" with e | aod <;>
      rw [hs] at hr
    · exact Except.noConfusion hr
    rcases ha : ensureStringArray (getField body "symbols") "symbols" with e | syms <;>
      rw [ha] at hr
    · exact Except.noConfusion hr
    obtain rfl : _ = r := Except.ok.inj hr
    exact ⟨rfl, rfl⟩

theorem parseComputeIndicators_spec_witness :
    isPositiveNumberVal (getField negLookbackBody "lookbackDays") = false ∧
    parseComputeIndicators negLookbackBody =
      .ok { asOfDate := "2026-02-13", symbols := ["SPY"], lookbackDays := none } ∧
    ({ asOfDate := "2026-02-13", symbols := ["SPY"], lookbackDays := none } :
      ComputeIndicatorsRequest).lookbackDays = none ∧
    resolveLookbackDays
      { asOfDate := "2026-02-13", symbols := ["SPY"], lookbackDays := none } = 260 :=
  ⟨by decide, rfl,
    ((parseComputeIndicators_spec negLookbackBody).2 (by decide) _ rfl).1,
    ((parseComputeIndicators_spec negLookbackBody).2 (by decide) _ rfl).2⟩

end TradingSignal
